import Mathlib

/-!
Verification of the recolor calculator
(src/mediapipe/calculators/image/recolor_calculator.cc).

The calculator blends a configured color into the masked region of an
image, weighted by per-pixel mask intensity and the luminance of the
source pixel.  It has a CPU path (`RenderCpu`, a scalar loop over an
OpenCV matrix view) and a GPU path (a fragment shader built in
`InitGpu` and driven by `RenderGpu`).

The embedding below models the floating-point arithmetic of the source
with exact rational arithmetic (the decimal literals 0.299, 0.587,
0.114, 1.0/255.0 of the source become the corresponding rationals),
8-bit pixel data as natural numbers, and the OpenCV conversion from
`cv::Vec3f` to `cv::Vec3b` (`saturate_cast<uchar>`, i.e. `cvRound`
with round-half-to-even followed by clamping to [0,255]) explicitly.
-/

namespace Recolor

/-- OpenCV `cvRound`: round to the nearest integer, ties to even
(the default IEEE rounding mode used by `cvRound`). -/
def cvRound (x : ℚ) : ℤ :=
  if x - ⌊x⌋ < 1/2 then ⌊x⌋
  else if (1 : ℚ)/2 < x - ⌊x⌋ then ⌊x⌋ + 1
  else if ⌊x⌋ % 2 = 0 then ⌊x⌋ else ⌊x⌋ + 1

/-- OpenCV `saturate_cast<uchar>` applied to a float: `cvRound`, then
clamp to the byte range [0,255]. -/
def saturate_cast (x : ℚ) : ℕ := (min 255 (max 0 (cvRound x))).toNat

/-- Luminance as computed by `RenderCpu` (recolor_calculator.cc:248-249):
`(color1[0] * 0.299 + color1[1] * 0.587 + color1[2] * 0.114) / 255`,
where `color1` holds the raw byte values of the RGB source pixel. -/
def luminance (r g b : ℚ) : ℚ := (r * 0.299 + g * 0.587 + b * 0.114) / 255

/-- One channel of the blend (recolor_calculator.cc:252):
`color1 * (1.0 - mix_value) + color2 * mix_value`. -/
def mixChannel (c1 c2 t : ℚ) : ℚ := c1 * (1 - t) + c2 * t

/-- The per-pixel body of the CPU loop, parameterized by the already
computed float `weight` (recolor_calculator.cc:245-253): luminance of
the source bytes, `mix_value = weight * luminance`, the three-channel
mix, and the conversion of the resulting `cv::Vec3f` to `cv::Vec3b`. -/
def cpuBlendPixelW (weight : ℚ) (r g b cr cg cb : ℕ) : ℕ × ℕ × ℕ :=
  let lum := luminance r g b
  let mix_value := weight * lum
  (saturate_cast (mixChannel r cr mix_value),
   saturate_cast (mixChannel g cg mix_value),
   saturate_cast (mixChannel b cb mix_value))

/-- The per-pixel function of `RenderCpu` (recolor_calculator.cc:242-254):
`weight = mask_full.at<uchar>(i, j) * (1.0 / 255.0)` followed by the
blend body, for mask byte `m`, source pixel bytes `(r,g,b)` and the
configured color bytes `(cr,cg,cb)` loaded by `LoadOptions`. -/
def renderCpuPixel (m r g b cr cg cb : ℕ) : ℕ × ℕ × ℕ :=
  cpuBlendPixelW ((m : ℚ) * (1/255)) r g b cr cg cb

/-- `RecolorCalculatorOptions::MaskChannel` (recolor_calculator.pb.h),
the configured mask channel selector. -/
inductive MaskChannel
  | UNKNOWN
  | RED
  | ALPHA
deriving DecidableEq

/-- The channel-plane index used by the CPU path after `cv::split`
(recolor_calculator.cc:219-222): `channels[3]` when the selector is
`ALPHA`, `channels[0]` otherwise. -/
def cpuMaskPlaneIndex (mc : MaskChannel) : ℕ :=
  if mc = MaskChannel.ALPHA then 3 else 0

/-- The compile-time `MASK_COMPONENT` chosen by `InitGpu`
(recolor_calculator.cc:387-396): `"r"` for `UNKNOWN` and `RED`,
`"a"` for `ALPHA`. -/
def gpuMaskComponent (mc : MaskChannel) : String :=
  match mc with
  | MaskChannel.UNKNOWN => "r"
  | MaskChannel.RED => "r"
  | MaskChannel.ALPHA => "a"

/-- GLSL swizzle semantics: the component index of a `vec4` named by a
single letter, `r` = 0, `g` = 1, `b` = 2, `a` = 3. -/
def glslComponentIndex (s : String) : ℕ :=
  if s = "r" then 0 else if s = "g" then 1 else if s = "b" then 2 else 3

/-- A GLSL `vec4` of rationals (texture samples are normalized
to [0,1]). -/
structure Vec4 where
  r : ℚ
  g : ℚ
  b : ℚ
  a : ℚ

/-- Component access of a `Vec4` by swizzle index. -/
def vec4Component (v : Vec4) (k : ℕ) : ℚ :=
  match k with
  | 0 => v.r
  | 1 => v.g
  | 2 => v.b
  | _ => v.a

/-- The body of the fragment shader built in `InitGpu`
(recolor_calculator.cc:424-433): sample the mask and the frame,
`color2 = vec4(recolor, 1.0)`, luminance of the normalized frame
color, `mix_value = weight.MASK_COMPONENT * luminance`, and
`fragColor = mix(color1, color2, mix_value)` componentwise.
`recolor` is the uniform set in `InitGpu` to the configured color
divided by 255. -/
def shaderMain (mc : MaskChannel) (maskTexel frameTexel : Vec4)
    (recolor : ℚ × ℚ × ℚ) : Vec4 :=
  let weight := maskTexel
  let color1 := frameTexel
  let color2 : Vec4 := ⟨recolor.1, recolor.2.1, recolor.2.2, 1⟩
  let lum := color1.r * 0.299 + color1.g * 0.587 + color1.b * 0.114
  let mix_value := vec4Component weight (glslComponentIndex (gpuMaskComponent mc)) * lum
  ⟨mixChannel color1.r color2.r mix_value,
   mixChannel color1.g color2.g mix_value,
   mixChannel color1.b color2.b mix_value,
   mixChannel color1.a color2.a mix_value⟩

/-- An `ImageFrame` seen through `formats::MatView`: a `width` by
`height` matrix of pixels with `channels` 8-bit components each.
`data i j c` is the byte of channel `c` of the pixel at row `i`,
column `j`. -/
structure ImageFrame where
  width : ℕ
  height : ℕ
  channels : ℕ
  data : ℕ → ℕ → ℕ → ℕ

/-- `cv::split` (recolor_calculator.cc:218): the list of single-channel
planes of an image, one per channel. -/
def splitChannels (img : ImageFrame) : List (ℕ → ℕ → ℕ) :=
  (List.range img.channels).map (fun c => fun i j => img.data i j c)

/-- The single-channel mask plane used by `RenderCpu`
(recolor_calculator.cc:216-223): when the mask has more than one
channel, split it and take `channels[3]` for selector `ALPHA` and
`channels[0]` otherwise; a single-channel mask is used directly.
The source indexes the split vector without a bounds check; the model
makes the out-of-bounds read explicit with a default plane. -/
def cpuSelectedPlane (mc : MaskChannel) (mask : ImageFrame) : ℕ → ℕ → ℕ :=
  if 1 < mask.channels then
    (splitChannels mask).getD (cpuMaskPlaneIndex mc) (fun _ _ => 0)
  else
    fun i j => mask.data i j 0

/-- Modelled external collaborator: OpenCV `cv::resize` with its
default bilinear interpolation (recolor_calculator.cc:225), idealized
in exact arithmetic: each destination pixel center is projected back
into the source grid and the four surrounding samples are blended
bilinearly, with edge clamping, then converted to a byte. -/
def resizeBilinear (plane : ℕ → ℕ → ℕ) (srcW srcH dstW dstH : ℕ) :
    ℕ → ℕ → ℕ :=
  fun i j =>
    let sy : ℚ := ((i : ℚ) + 1/2) * srcH / dstH - 1/2
    let sx : ℚ := ((j : ℚ) + 1/2) * srcW / dstW - 1/2
    let y0 : ℤ := ⌊sy⌋
    let x0 : ℤ := ⌊sx⌋
    let fy : ℚ := sy - y0
    let fx : ℚ := sx - x0
    let clampY : ℤ → ℕ := fun y => (min ((srcH : ℤ) - 1) (max 0 y)).toNat
    let clampX : ℤ → ℕ := fun x => (min ((srcW : ℤ) - 1) (max 0 x)).toNat
    let p00 : ℚ := plane (clampY y0) (clampX x0)
    let p01 : ℚ := plane (clampY y0) (clampX (x0 + 1))
    let p10 : ℚ := plane (clampY (y0 + 1)) (clampX x0)
    let p11 : ℚ := plane (clampY (y0 + 1)) (clampX (x0 + 1))
    saturate_cast ((1 - fy) * ((1 - fx) * p00 + fx * p01) +
                   fy * ((1 - fx) * p10 + fx * p11))

/-- The blend configuration loaded by `LoadOptions`
(recolor_calculator.cc:362-374): the three configured color components
(`color { r g b }`, integers in [0,255]) and the mask channel
selector. -/
structure BlendConfig where
  colorR : ℕ
  colorG : ℕ
  colorB : ℕ
  maskChannel : MaskChannel

/-- Access a component of the `ℕ × ℕ × ℕ` result of the pixel blend
by channel index. -/
def tripleGet (t : ℕ × ℕ × ℕ) (c : ℕ) : ℕ :=
  match c with
  | 0 => t.1
  | 1 => t.2.1
  | _ => t.2.2

/-- `RecolorCalculator::RenderCpu` (recolor_calculator.cc:203-260).
In order: if the MASK input packet is empty, return OK with no output;
otherwise require the input image to have exactly 3 channels
(`RET_CHECK`, an error status on failure) before anything is
allocated; then select the mask plane, resize it to the input size,
and produce the output image by running the per-pixel blend loop.
`none` for the mask models an empty MASK input packet; the result is
`Except.ok (some out)` when an output packet is added, `Except.ok
none` when the frame is skipped, and `Except.error` for a failed
`RET_CHECK`. -/
def renderCpu (cfg : BlendConfig) (input : ImageFrame)
    (mask : Option ImageFrame) : Except String (Option ImageFrame) :=
  match mask with
  | none => Except.ok none
  | some maskImg =>
    if input.channels = 3 then
      let plane := cpuSelectedPlane cfg.maskChannel maskImg
      let mask_full := resizeBilinear plane maskImg.width maskImg.height
        input.width input.height
      Except.ok (some
        { width := input.width
          height := input.height
          channels := 3
          data := fun i j c =>
            tripleGet
              (renderCpuPixel (mask_full i j)
                (input.data i j 0) (input.data i j 1) (input.data i j 2)
                cfg.colorR cfg.colorG cfg.colorB) c })
    else
      Except.error "RET_CHECK failed: input_mat.channels() == 3"

/-- A `GpuBuffer` as sampled by the shader: a texture whose texels are
RGBA values normalized to [0,1]. -/
structure GpuBuffer where
  width : ℕ
  height : ℕ
  texel : ℕ → ℕ → Vec4

/-- `RecolorCalculator::RenderGpu` (recolor_calculator.cc:262-308):
if the MASK_GPU input packet is empty, return OK with no output;
otherwise create a destination texture of the input size and run the
fragment shader at every texel, with the `recolor` uniform set by
`InitGpu` to the configured color components divided by 255. -/
def renderGpu (cfg : BlendConfig) (input : GpuBuffer)
    (mask : Option GpuBuffer) : Except String (Option GpuBuffer) :=
  match mask with
  | none => Except.ok none
  | some maskBuf =>
    Except.ok (some
      { width := input.width
        height := input.height
        texel := fun i j =>
          shaderMain cfg.maskChannel (maskBuf.texel i j) (input.texel i j)
            ((cfg.colorR : ℚ) / 255, (cfg.colorG : ℚ) / 255,
             (cfg.colorB : ℚ) / 255) })

/-! ### Arithmetic facts about the rounding and blending primitives -/

/-- `cvRound` never goes below an integer lower bound of its input. -/
lemma le_cvRound {n : ℤ} {x : ℚ} (h : (n : ℚ) ≤ x) : n ≤ cvRound x := by
  have hfl : n ≤ ⌊x⌋ := Int.le_floor.mpr h
  unfold cvRound
  split_ifs <;> omega

/-- `cvRound` never exceeds an integer upper bound of its input. -/
lemma cvRound_le {n : ℤ} {x : ℚ} (h : x ≤ (n : ℚ)) : cvRound x ≤ n := by
  have hfl : ⌊x⌋ ≤ n := by
    have := Int.floor_le_floor h
    simpa using this
  unfold cvRound
  split_ifs with h1 h2 h3
  · exact hfl
  · have hx1 : (⌊x⌋ : ℚ) + 1/2 ≤ x := by linarith
    have hlt : ⌊x⌋ < n := by
      by_contra hcon
      have : n ≤ ⌊x⌋ := by omega
      have : (n : ℚ) ≤ (⌊x⌋ : ℚ) := by exact_mod_cast this
      linarith
    omega
  · exact hfl
  · have hx1 : (⌊x⌋ : ℚ) + 1/2 ≤ x := by linarith
    have hlt : ⌊x⌋ < n := by
      by_contra hcon
      have : n ≤ ⌊x⌋ := by omega
      have : (n : ℚ) ≤ (⌊x⌋ : ℚ) := by exact_mod_cast this
      linarith
    omega

/-- `cvRound` is within 1/2 of its input. -/
lemma abs_cvRound_sub_le (x : ℚ) : |(cvRound x : ℚ) - x| ≤ 1/2 := by
  have hfl := Int.floor_le x
  have hfu := Int.lt_floor_add_one x
  rw [abs_le]
  unfold cvRound
  split_ifs with h1 h2 h3 <;> constructor <;> push_cast <;> linarith

/-- `cvRound` of an integer is that integer. -/
lemma cvRound_intCast (n : ℤ) : cvRound (n : ℚ) = n := by
  norm_num [cvRound]

/-- On values within the byte range, `saturate_cast` is exactly
`cvRound` (no clamping). -/
lemma saturate_cast_eq {x : ℚ} (h0 : 0 ≤ x) (h255 : x ≤ 255) :
    (saturate_cast x : ℤ) = cvRound x := by
  have hl : (0 : ℤ) ≤ cvRound x := le_cvRound (by exact_mod_cast h0)
  have hu : cvRound x ≤ 255 := cvRound_le (by exact_mod_cast h255)
  unfold saturate_cast
  omega

/-- On byte values, `saturate_cast` is the identity. -/
lemma saturate_cast_natCast {n : ℕ} (h : n ≤ 255) :
    saturate_cast (n : ℚ) = n := by
  have hr : cvRound ((n : ℤ) : ℚ) = (n : ℤ) := cvRound_intCast n
  have := saturate_cast_eq (x := (n : ℚ)) (by positivity)
    (by exact_mod_cast h)
  push_cast at hr
  omega

/-- `saturate_cast` respects integer lower bounds of the byte range. -/
lemma le_saturate_cast {n : ℕ} {x : ℚ} (hn : n ≤ 255) (h : (n : ℚ) ≤ x) :
    n ≤ saturate_cast x := by
  have hl : (n : ℤ) ≤ cvRound x := le_cvRound (by exact_mod_cast h)
  unfold saturate_cast
  omega

/-- `saturate_cast` respects integer upper bounds. -/
lemma saturate_cast_le {n : ℕ} {x : ℚ} (h : x ≤ (n : ℚ)) :
    saturate_cast x ≤ n := by
  have hu : cvRound x ≤ (n : ℤ) := cvRound_le (by exact_mod_cast h)
  unfold saturate_cast
  omega

/-- The mix with parameter `t` in `[0,1]` stays between its two
endpoints. -/
lemma mixChannel_between {a b t : ℚ} (h0 : 0 ≤ t) (h1 : t ≤ 1) :
    min a b ≤ mixChannel a b t ∧ mixChannel a b t ≤ max a b := by
  unfold mixChannel
  rcases le_total a b with hab | hab
  · rw [min_eq_left hab, max_eq_right hab]
    constructor <;> nlinarith
  · rw [min_eq_right hab, max_eq_left hab]
    constructor <;> nlinarith

/-- The luminance of a byte-range RGB triple lies in `[0,1]`
(the weights 0.299 + 0.587 + 0.114 sum exactly to 1). -/
lemma luminance_mem {r g b : ℚ} (hr0 : 0 ≤ r) (hr : r ≤ 255)
    (hg0 : 0 ≤ g) (hg : g ≤ 255) (hb0 : 0 ≤ b) (hb : b ≤ 255) :
    0 ≤ luminance r g b ∧ luminance r g b ≤ 1 := by
  unfold luminance
  constructor
  · positivity
  · rw [div_le_one (by norm_num)]
    norm_num
    linarith

/-! ### The Blend Engine contract from the specification -/

/-- The Blend Engine formula exactly as the spec states it (section
4.2): `luminance = (R*0.299 + G*0.587 + B*0.114) / 255`,
`mixAmount = weight * luminance`,
`result = sourcePixel * (1 - mixAmount) + targetColor * mixAmount`
per channel, all in floating point (here exact rationals). -/
def specBlend (R G B w tR tG tB : ℚ) : ℚ × ℚ × ℚ :=
  let lum := (R * 0.299 + G * 0.587 + B * 0.114) / 255
  let mixAmount := w * lum
  (R * (1 - mixAmount) + tR * mixAmount,
   G * (1 - mixAmount) + tG * mixAmount,
   B * (1 - mixAmount) + tB * mixAmount)

/-! ### Claims -/

/-- Claim C1: for every source pixel with RGB components in [0,255],
mask weight `w = m/255` with mask byte `m`, and configured target
color components in [0,255], the CPU path computes each output pixel
channel as `sourcePixel*(1-w*luminance) + targetColor*(w*luminance)`
with `luminance = (R*0.299 + G*0.587 + B*0.114)/255`, and the 8-bit
conversion is applied only after the mix. -/
theorem claim_C1_cpu_blend_formula (m r g b cr cg cb : ℕ)
    (hm : m ≤ 255) (hr : r ≤ 255) (hg : g ≤ 255) (hb : b ≤ 255)
    (hcr : cr ≤ 255) (hcg : cg ≤ 255) (hcb : cb ≤ 255) :
    renderCpuPixel m r g b cr cg cb =
      (saturate_cast (specBlend r g b ((m : ℚ) / 255) cr cg cb).1,
       saturate_cast (specBlend r g b ((m : ℚ) / 255) cr cg cb).2.1,
       saturate_cast (specBlend r g b ((m : ℚ) / 255) cr cg cb).2.2) := by
  simp only [renderCpuPixel, cpuBlendPixelW, specBlend, mixChannel, luminance,
    Prod.mk.injEq]
  refine ⟨?_, ?_, ?_⟩ <;> · apply congrArg saturate_cast; ring

/-- Witness for claim C1 at a concrete input. -/
theorem claim_C1_cpu_blend_formula_witness :
    (128 ≤ 255 ∧ 200 ≤ 255 ∧ 255 ≤ 255) ∧
    renderCpuPixel 128 200 100 50 0 0 255 =
      (saturate_cast (specBlend 200 100 50 ((128 : ℚ) / 255) 0 0 255).1,
       saturate_cast (specBlend 200 100 50 ((128 : ℚ) / 255) 0 0 255).2.1,
       saturate_cast (specBlend 200 100 50 ((128 : ℚ) / 255) 0 0 255).2.2) := by
  refine ⟨⟨by norm_num, by norm_num, by norm_num⟩, ?_⟩
  have h := claim_C1_cpu_blend_formula 128 200 100 50 0 0 255
    (by norm_num) (by norm_num) (by norm_num) (by norm_num)
    (by norm_num) (by norm_num) (by norm_num)
  push_cast at h ⊢
  exact h

/-- Claim C7: a mask weight byte of 0 makes the CPU output pixel equal
to the input pixel bit for bit after the 8-bit conversion. -/
theorem claim_C7_weight_zero_identity (r g b cr cg cb : ℕ)
    (hr : r ≤ 255) (hg : g ≤ 255) (hb : b ≤ 255) :
    renderCpuPixel 0 r g b cr cg cb = (r, g, b) := by
  simp only [renderCpuPixel, cpuBlendPixelW, mixChannel, Prod.mk.injEq]
  norm_num
  exact ⟨saturate_cast_natCast hr, saturate_cast_natCast hg,
    saturate_cast_natCast hb⟩

/-- Witness for claim C7 at a concrete input. -/
theorem claim_C7_weight_zero_identity_witness :
    (17 ≤ 255 ∧ 34 ≤ 255 ∧ 51 ≤ 255) ∧
    renderCpuPixel 0 17 34 51 200 201 202 = (17, 34, 51) :=
  ⟨⟨by norm_num, by norm_num, by norm_num⟩,
   claim_C7_weight_zero_identity 17 34 51 200 201 202
     (by norm_num) (by norm_num) (by norm_num)⟩

/-- Claim C9: with mask byte 255 (weight 1.0) and a white source pixel
(255,255,255), so that the luminance is exactly 1, the CPU output
pixel equals the configured target color exactly. -/
theorem claim_C9_white_full_weight (cr cg cb : ℕ)
    (hcr : cr ≤ 255) (hcg : cg ≤ 255) (hcb : cb ≤ 255) :
    renderCpuPixel 255 255 255 255 cr cg cb = (cr, cg, cb) := by
  have hlum : luminance 255 255 255 = 1 := by norm_num [luminance]
  simp only [renderCpuPixel, cpuBlendPixelW, mixChannel, Prod.mk.injEq]
  push_cast
  rw [hlum]
  norm_num
  exact ⟨saturate_cast_natCast hcr, saturate_cast_natCast hcg,
    saturate_cast_natCast hcb⟩

/-- Witness for claim C9 at a concrete target color. -/
theorem claim_C9_white_full_weight_witness :
    (12 ≤ 255 ∧ 34 ≤ 255 ∧ 56 ≤ 255) ∧
    renderCpuPixel 255 255 255 255 12 34 56 = (12, 34, 56) :=
  ⟨⟨by norm_num, by norm_num, by norm_num⟩,
   claim_C9_white_full_weight 12 34 56 (by norm_num) (by norm_num)
     (by norm_num)⟩

/-- Claim C10 counterexample: at source pixel (200,100,50), mask
weight 0.5 and target color (0,0,255) the CPU blend does NOT produce
(167, 83, 85) as the claim states. -/
theorem claim_C10_counterexample :
    cpuBlendPixelW (1/2) 200 100 50 0 0 255 ≠ (167, 83, 85) := by
  norm_num [cpuBlendPixelW, luminance, mixChannel, saturate_cast, cvRound]
  omega

/-- Claim C10 amended: at source pixel (200,100,50), mask weight 0.5
and target color (0,0,255), the luminance is 207/425 (about 0.4871,
not 0.3313), the mix amount is 207/850 (about 0.2435, not 0.1657),
and the CPU output pixel is (151, 76, 100). -/
theorem claim_C10_amended :
    luminance 200 100 50 = 207/425 ∧
    (1/2 : ℚ) * luminance 200 100 50 = 207/850 ∧
    cpuBlendPixelW (1/2) 200 100 50 0 0 255 = (151, 76, 100) := by
  refine ⟨by norm_num [luminance], by norm_num [luminance], ?_⟩
  norm_num [cpuBlendPixelW, luminance, mixChannel, saturate_cast, cvRound]
  omega

/-- Claim C8: with mask weight and luminance both in [0,1] and byte
source and target channels, each channel of the blend result lies
between the channelwise min and max of source and target, both before
and after the 8-bit rounding of the CPU path. -/
theorem claim_C8_convexity (s c : ℕ) (w lum : ℚ)
    (hs : s ≤ 255) (hc : c ≤ 255)
    (hw0 : 0 ≤ w) (hw1 : w ≤ 1) (hl0 : 0 ≤ lum) (hl1 : lum ≤ 1) :
    (min (s : ℚ) c ≤ mixChannel s c (w * lum) ∧
     mixChannel s c (w * lum) ≤ max (s : ℚ) c) ∧
    (min s c ≤ saturate_cast (mixChannel s c (w * lum)) ∧
     saturate_cast (mixChannel s c (w * lum)) ≤ max s c) := by
  have ht0 : 0 ≤ w * lum := mul_nonneg hw0 hl0
  have ht1 : w * lum ≤ 1 := by nlinarith
  have hbet := mixChannel_between (a := (s : ℚ)) (b := (c : ℚ)) ht0 ht1
  refine ⟨hbet, ?_, ?_⟩
  · refine le_saturate_cast (by omega) ?_
    calc ((min s c : ℕ) : ℚ) = min (s : ℚ) (c : ℚ) := by push_cast; rfl
      _ ≤ _ := hbet.1
  · refine saturate_cast_le ?_
    calc mixChannel (s : ℚ) c (w * lum) ≤ max (s : ℚ) (c : ℚ) := hbet.2
      _ = ((max s c : ℕ) : ℚ) := by push_cast; rfl

/-- Witness for claim C8 at a concrete input. -/
theorem claim_C8_convexity_witness :
    ((0 : ℚ) ≤ 1/2 ∧ (1/2 : ℚ) ≤ 1) ∧
    (min (10 : ℚ) 200 ≤ mixChannel 10 200 ((1/2) * (1/2)) ∧
     mixChannel 10 200 ((1/2) * (1/2)) ≤ max (10 : ℚ) 200) ∧
    (min 10 200 ≤ saturate_cast (mixChannel 10 200 ((1/2) * (1/2))) ∧
     saturate_cast (mixChannel 10 200 ((1/2) * (1/2))) ≤ max 10 200) := by
  refine ⟨⟨by norm_num, by norm_num⟩, ?_⟩
  have h := claim_C8_convexity 10 200 (1/2) (1/2) (by norm_num) (by norm_num)
    (by norm_num) (by norm_num) (by norm_num) (by norm_num)
  push_cast at h ⊢
  exact h

/-- `vec4Component` of a constant texel is that constant, whatever the
swizzle index. -/
lemma vec4Component_const (x : ℚ) (k : ℕ) :
    vec4Component ⟨x, x, x, x⟩ k = x := by
  unfold vec4Component
  rcases k with _ | _ | _ | k <;> rfl

/-- Quantization error of `saturate_cast` on in-range values is at
most 1/2. -/
lemma abs_saturate_cast_sub_le {x : ℚ} (h0 : 0 ≤ x) (h255 : x ≤ 255) :
    |(saturate_cast x : ℚ) - x| ≤ 1/2 := by
  have heq := saturate_cast_eq h0 h255
  have habs := abs_cvRound_sub_le x
  have hcast : ((saturate_cast x : ℕ) : ℚ) = ((cvRound x : ℤ) : ℚ) := by
    exact_mod_cast congrArg (fun z : ℤ => (z : ℚ)) heq
  rw [hcast]
  exact habs

/-- One channel of the CPU path, rescaled to [0,1], is within 2/255 of
the corresponding exact normalized mix (the value the fragment shader
computes). -/
lemma cpu_gpu_channel_close {c1 c2 : ℕ} {t : ℚ}
    (hc1 : c1 ≤ 255) (hc2 : c2 ≤ 255) (ht0 : 0 ≤ t) (ht1 : t ≤ 1) :
    |(saturate_cast (mixChannel c1 c2 t) : ℚ) / 255 -
      mixChannel ((c1 : ℚ) / 255) ((c2 : ℚ) / 255) t| ≤ 2/255 := by
  set E : ℚ := mixChannel c1 c2 t with hE
  have hbet := mixChannel_between (a := (c1 : ℚ)) (b := (c2 : ℚ)) ht0 ht1
  have hE0 : 0 ≤ E := by
    have : (0 : ℚ) ≤ min (c1 : ℚ) c2 := by positivity
    linarith [hbet.1]
  have hE255 : E ≤ 255 := by
    have h1 : ((c1 : ℕ) : ℚ) ≤ 255 := by exact_mod_cast hc1
    have h2 : ((c2 : ℕ) : ℚ) ≤ 255 := by exact_mod_cast hc2
    have : max (c1 : ℚ) c2 ≤ 255 := max_le h1 h2
    linarith [hbet.2]
  have hclose := abs_saturate_cast_sub_le hE0 hE255
  have hfrag : mixChannel ((c1 : ℚ) / 255) ((c2 : ℚ) / 255) t = E / 255 := by
    rw [hE]
    unfold mixChannel
    ring
  rw [hfrag]
  have hrw : (saturate_cast E : ℚ) / 255 - E / 255 =
      ((saturate_cast E : ℚ) - E) / 255 := by ring
  rw [hrw, abs_div]
  rw [abs_of_pos (by norm_num : (0 : ℚ) < 255)]
  rw [div_le_div_iff₀ (by norm_num) (by norm_num)]
  linarith

/-- The fragment shader evaluated at byte inputs: a mask texel whose
four components all hold the normalized weight `m/255` (so any
configured selector reads the same weight), a frame texel holding the
normalized source pixel with alpha 1, and the `recolor` uniform set by
`InitGpu` to the configured color components divided by 255. -/
def gpuFragPixel (mc : MaskChannel) (m r g b cr cg cb : ℕ) : Vec4 :=
  shaderMain mc
    ⟨(m : ℚ) / 255, (m : ℚ) / 255, (m : ℚ) / 255, (m : ℚ) / 255⟩
    ⟨(r : ℚ) / 255, (g : ℚ) / 255, (b : ℚ) / 255, 1⟩
    ((cr : ℚ) / 255, (cg : ℚ) / 255, (cb : ℚ) / 255)

/-- Claim C2: for every input pixel, mask weight byte and configured
color, the per-pixel function of the CPU scalar loop and the
per-fragment function of the GPU shader (with its [0,1] normalization)
agree to within 2/255 per channel, for every mask channel selector. -/
theorem claim_C2_cpu_gpu_agree (mc : MaskChannel) (m r g b cr cg cb : ℕ)
    (hm : m ≤ 255) (hr : r ≤ 255) (hg : g ≤ 255) (hb : b ≤ 255)
    (hcr : cr ≤ 255) (hcg : cg ≤ 255) (hcb : cb ≤ 255) :
    |((renderCpuPixel m r g b cr cg cb).1 : ℚ) / 255 -
        (gpuFragPixel mc m r g b cr cg cb).r| ≤ 2/255 ∧
    |((renderCpuPixel m r g b cr cg cb).2.1 : ℚ) / 255 -
        (gpuFragPixel mc m r g b cr cg cb).g| ≤ 2/255 ∧
    |((renderCpuPixel m r g b cr cg cb).2.2 : ℚ) / 255 -
        (gpuFragPixel mc m r g b cr cg cb).b| ≤ 2/255 := by
  have ht0 : 0 ≤ (m : ℚ) * (1/255) * luminance r g b := by
    have hl := luminance_mem (r := (r : ℚ)) (g := (g : ℚ)) (b := (b : ℚ))
      (by positivity) (by exact_mod_cast hr) (by positivity)
      (by exact_mod_cast hg) (by positivity) (by exact_mod_cast hb)
    have hm0 : (0 : ℚ) ≤ (m : ℚ) := by positivity
    nlinarith [hl.1]
  have ht1 : (m : ℚ) * (1/255) * luminance r g b ≤ 1 := by
    have hl := luminance_mem (r := (r : ℚ)) (g := (g : ℚ)) (b := (b : ℚ))
      (by positivity) (by exact_mod_cast hr) (by positivity)
      (by exact_mod_cast hg) (by positivity) (by exact_mod_cast hb)
    have hm255 : (m : ℚ) ≤ 255 := by exact_mod_cast hm
    have hm0 : (0 : ℚ) ≤ (m : ℚ) := by positivity
    nlinarith [hl.1, hl.2]
  have hfrag : gpuFragPixel mc m r g b cr cg cb =
      ⟨mixChannel ((r : ℚ) / 255) ((cr : ℚ) / 255)
          ((m : ℚ) * (1/255) * luminance r g b),
        mixChannel ((g : ℚ) / 255) ((cg : ℚ) / 255)
          ((m : ℚ) * (1/255) * luminance r g b),
        mixChannel ((b : ℚ) / 255) ((cb : ℚ) / 255)
          ((m : ℚ) * (1/255) * luminance r g b),
        mixChannel 1 1 ((m : ℚ) * (1/255) * luminance r g b)⟩ := by
    unfold gpuFragPixel shaderMain
    simp only [vec4Component_const]
    have hmix : (m : ℚ) / 255 *
        ((r : ℚ) / 255 * 0.299 + (g : ℚ) / 255 * 0.587 +
          (b : ℚ) / 255 * 0.114) =
        (m : ℚ) * (1/255) * luminance r g b := by
      unfold luminance
      ring
    rw [hmix]
  simp only [renderCpuPixel, cpuBlendPixelW, hfrag]
  exact ⟨cpu_gpu_channel_close hr hcr ht0 ht1,
    cpu_gpu_channel_close hg hcg ht0 ht1,
    cpu_gpu_channel_close hb hcb ht0 ht1⟩

/-- Witness for claim C2 at a concrete input. -/
theorem claim_C2_cpu_gpu_agree_witness :
    (128 ≤ 255 ∧ 200 ≤ 255) ∧
    (|((renderCpuPixel 128 200 100 50 0 0 255).1 : ℚ) / 255 -
        (gpuFragPixel MaskChannel.RED 128 200 100 50 0 0 255).r| ≤ 2/255 ∧
     |((renderCpuPixel 128 200 100 50 0 0 255).2.1 : ℚ) / 255 -
        (gpuFragPixel MaskChannel.RED 128 200 100 50 0 0 255).g| ≤ 2/255 ∧
     |((renderCpuPixel 128 200 100 50 0 0 255).2.2 : ℚ) / 255 -
        (gpuFragPixel MaskChannel.RED 128 200 100 50 0 0 255).b| ≤ 2/255) :=
  ⟨⟨by norm_num, by norm_num⟩,
   claim_C2_cpu_gpu_agree MaskChannel.RED 128 200 100 50 0 0 255
     (by norm_num) (by norm_num) (by norm_num) (by norm_num)
     (by norm_num) (by norm_num) (by norm_num)⟩

/-- A plane of the split list is the corresponding channel of the
image, whenever the index is in bounds. -/
lemma splitChannels_getD (img : ImageFrame) (k : ℕ) (d : ℕ → ℕ → ℕ)
    (h : k < img.channels) :
    (splitChannels img).getD k d = fun i j => img.data i j k := by
  unfold splitChannels
  rw [List.getD_eq_getElem?_getD]
  simp [List.getElem?_map, List.getElem?_range, h]

/-- Claim C3: for a mask with more than one channel, the weight plane
is channel 3 (alpha) when the selector is ALPHA and channel 0 for RED
or any other selector value, on the CPU path; the GPU shader likewise
bakes in the mask component `a` (swizzle index 3) for ALPHA and `r`
(swizzle index 0) otherwise. -/
theorem claim_C3_mask_channel_selection (mc : MaskChannel)
    (mask : ImageFrame) (hch : 1 < mask.channels) :
    (mc = MaskChannel.ALPHA →
      cpuMaskPlaneIndex mc = 3 ∧
      gpuMaskComponent mc = "a" ∧
      glslComponentIndex (gpuMaskComponent mc) = 3 ∧
      (3 < mask.channels →
        cpuSelectedPlane mc mask = fun i j => mask.data i j 3)) ∧
    (mc ≠ MaskChannel.ALPHA →
      cpuMaskPlaneIndex mc = 0 ∧
      gpuMaskComponent mc = "r" ∧
      glslComponentIndex (gpuMaskComponent mc) = 0 ∧
      cpuSelectedPlane mc mask = fun i j => mask.data i j 0) := by
  constructor
  · intro hA
    subst hA
    refine ⟨rfl, rfl, rfl, ?_⟩
    intro h3
    unfold cpuSelectedPlane
    rw [if_pos hch]
    exact splitChannels_getD mask 3 _ (by
      have : cpuMaskPlaneIndex MaskChannel.ALPHA = 3 := rfl
      omega)
  · intro hNA
    have hidx : cpuMaskPlaneIndex mc = 0 := by
      unfold cpuMaskPlaneIndex
      rw [if_neg hNA]
    have hcomp : gpuMaskComponent mc = "r" := by
      cases mc with
      | UNKNOWN => rfl
      | RED => rfl
      | ALPHA => exact absurd rfl hNA
    refine ⟨hidx, hcomp, by rw [hcomp]; rfl, ?_⟩
    unfold cpuSelectedPlane
    rw [if_pos hch, hidx]
    exact splitChannels_getD mask 0 _ (by omega)

/-- A concrete 4-channel (RGBA) mask whose channel value encodes the
channel index, for witnesses. -/
def maskEx4 : ImageFrame :=
  { width := 2, height := 2, channels := 4, data := fun _ _ c => c }

/-- Witness for claim C3 at a concrete selector and mask. -/
theorem claim_C3_mask_channel_selection_witness :
    (1 < maskEx4.channels ∧ MaskChannel.RED ≠ MaskChannel.ALPHA) ∧
    (cpuMaskPlaneIndex MaskChannel.RED = 0 ∧
     gpuMaskComponent MaskChannel.RED = "r" ∧
     glslComponentIndex (gpuMaskComponent MaskChannel.RED) = 0 ∧
     cpuSelectedPlane MaskChannel.RED maskEx4 =
       fun i j => maskEx4.data i j 0) :=
  ⟨⟨by norm_num [maskEx4], by simp⟩,
   (claim_C3_mask_channel_selection MaskChannel.RED maskEx4
     (by norm_num [maskEx4])).2 (by simp)⟩

/-- A concrete 3-channel (RGB) mask, a mask kind the calculator
documents as accepted on the CPU path. -/
def rgbMaskEx : ImageFrame :=
  { width := 2, height := 2, channels := 3, data := fun _ _ _ => 0 }

/-- Claim C4 evaluated at the failing input: for a 3-channel RGB mask
(admitted by the CPU interface) under selector ALPHA, the CPU path
indexes plane 3 of a split vector of length 3 — the index is NOT
within bounds, contradicting the claimed safety property. -/
theorem claim_C4_alpha_index_out_of_bounds :
    1 < rgbMaskEx.channels ∧
    (splitChannels rgbMaskEx).length = 3 ∧
    cpuMaskPlaneIndex MaskChannel.ALPHA = 3 ∧
    ¬ cpuMaskPlaneIndex MaskChannel.ALPHA < (splitChannels rgbMaskEx).length := by
  refine ⟨by norm_num [rgbMaskEx], ?_, rfl, ?_⟩
  · simp [splitChannels, rgbMaskEx]
  · simp [splitChannels, rgbMaskEx, cpuMaskPlaneIndex]

/-- Claim C5: when the mask input packet is empty for a frame, both
the CPU and the GPU render path return success and emit no output
packet. -/
theorem claim_C5_empty_mask_skips (cfg : BlendConfig) (input : ImageFrame)
    (ginput : GpuBuffer) :
    renderCpu cfg input none = Except.ok none ∧
    renderGpu cfg ginput none = Except.ok none :=
  ⟨rfl, rfl⟩

/-- A concrete configuration for counterexamples and witnesses. -/
def cfgEx : BlendConfig :=
  { colorR := 0, colorG := 0, colorB := 255, maskChannel := MaskChannel.RED }

/-- A concrete single-channel 1x1 source image, wrong channel count
for the CPU path. -/
def badChannelImg : ImageFrame :=
  { width := 1, height := 1, channels := 4, data := fun _ _ _ => 7 }

/-- A concrete 1x1 single-channel mask. -/
def grayMaskEx : ImageFrame :=
  { width := 1, height := 1, channels := 1, data := fun _ _ _ => 255 }

/-- Claim C6 counterexample: a source image with 4 channels does not
make the CPU path fail when the mask input is empty — the empty-mask
check precedes the channel check, so the frame is skipped with a
success status. -/
theorem claim_C6_counterexample :
    badChannelImg.channels ≠ 3 ∧
    renderCpu cfgEx badChannelImg none = Except.ok none :=
  ⟨by norm_num [badChannelImg], rfl⟩

/-- Claim C6 amended: for every frame whose mask input is present,
a source image whose channel count is not exactly 3 makes the CPU
path fail with an error status and emit no output packet; the check
runs before the output image is allocated. -/
theorem claim_C6_wrong_channels_error (cfg : BlendConfig)
    (input : ImageFrame) (maskImg : ImageFrame)
    (h : input.channels ≠ 3) :
    renderCpu cfg input (some maskImg) =
      Except.error "RET_CHECK failed: input_mat.channels() == 3" := by
  simp only [renderCpu]
  rw [if_neg h]

/-- Witness for claim C6 (amended) at a concrete input. -/
theorem claim_C6_wrong_channels_error_witness :
    badChannelImg.channels ≠ 3 ∧
    renderCpu cfgEx badChannelImg (some grayMaskEx) =
      Except.error "RET_CHECK failed: input_mat.channels() == 3" :=
  ⟨by norm_num [badChannelImg],
   claim_C6_wrong_channels_error cfgEx badChannelImg grayMaskEx
     (by norm_num [badChannelImg])⟩

end Recolor
